import Mathlib

/-!
# Package `pubmed`: a verification development

A shallow embedding of the Go package `pubmed` (`pubmed.go`, `data.go`): the client
constructor `NewClient`, the three API operations `Esearch`, `Efetch`, `IDConvert`
and the helper `httpGet`.

The package is a thin layer over the Go standard library.  Everything the package
calls from outside itself is kept apart from the package code:

* the URL functions (`url.ParseRequestURI`, `(*url.URL).String`), request
  construction (`http.NewRequest`), the HTTP round trip (`(*http.Client).Do`) and the
  JSON / XML decoders are fields of an environment `Env`; the package functions are
  written against an arbitrary environment;
* a reference model of the `net/url` functions and of `http.NewRequest` is given in
  the namespaces `url` and `http` and packaged as `goEnv`; it follows the text of
  those functions in the Go standard library (release 1.21), function by function, and
  is used where a statement is about what they do on the URLs the package builds.

Go strings are byte sequences; they are modelled as lists of byte values.
Every operation returns, next to its Go results, the list of outside calls it made
(`Event`), in order.
-/

namespace Pubmed

/-! ## Strings -/

/-- A Go string: a finite sequence of bytes, each entry a byte value. -/
abbrev GoString := List Nat

/-- The bytes of a string literal of the source text (its UTF-8 encoding). -/
def lit (s : String) : GoString :=
  s.toList.flatMap fun c => (String.utf8EncodeChar c).map UInt8.toNat

/-- Go `strings.HasPrefix`. -/
def hasPrefix : GoString → GoString → Bool
  | _, [] => true
  | [], _ :: _ => false
  | c :: cs, p :: ps => c == p && hasPrefix cs ps

/-- Go `strings.HasSuffix`. -/
def hasSuffix (s suffix : GoString) : Bool :=
  hasPrefix s.reverse suffix.reverse

/-- Go `strings.Index`: the position of the first occurrence of `sep` in `s`. -/
def index : GoString → GoString → Option Nat
  | [], sep => if sep.isEmpty then some 0 else none
  | c :: cs, sep =>
    if hasPrefix (c :: cs) sep then some 0
    else (index cs sep).map (· + 1)

/-- Go `strings.LastIndex` for a one-byte separator. -/
def lastIndexByte (s : GoString) (sep : Nat) : Option Nat :=
  (index s.reverse [sep]).map fun i => s.length - 1 - i

/-- Go `strings.Cut(s, sep)` for a one-byte separator: the text before the first
`sep`, the text after it, and whether `sep` occurs. -/
def cut (sep : Nat) : GoString → GoString × GoString × Bool
  | [] => ([], [], false)
  | c :: cs =>
    if c == sep then ([], cs, true)
    else ((c :: (cut sep cs).1), (cut sep cs).2.1, (cut sep cs).2.2)

/-! ## Reference model of `net/url` -/

namespace url

/-- The errors `net/url` reports while parsing. -/
inductive ParseErr
  /-- An error made with `errors.New(msg)`. -/
  | text (msg : GoString)
  /-- An `EscapeError`: a malformed percent escape. -/
  | EscapeError (s : GoString)
  /-- An `InvalidHostError`: a byte not allowed in a host. -/
  | InvalidHostError (s : GoString)
  /-- The error `invalid port ... after host`. -/
  | invalidPort (colonPort : GoString)
  deriving DecidableEq, Repr

/-- Go `url.Userinfo`. -/
structure Userinfo where
  username : GoString
  password : GoString
  passwordSet : Bool
  deriving DecidableEq, Repr

/-- Go `url.URL`. -/
structure URL where
  Scheme : GoString := []
  Opaque : GoString := []
  User : Option Userinfo := none
  Host : GoString := []
  Path : GoString := []
  RawPath : GoString := []
  OmitHost : Bool := false
  ForceQuery : Bool := false
  RawQuery : GoString := []
  Fragment : GoString := []
  RawFragment : GoString := []
  deriving DecidableEq, Repr

/-- The `encoding` modes of `net/url`. -/
inductive encoding
  | encodePath
  | encodePathSegment
  | encodeHost
  | encodeZone
  | encodeUserPassword
  | encodeQueryComponent
  | encodeFragment
  deriving DecidableEq, Repr

open encoding

/-- Go `stringContainsCTLByte`: some byte is below 0x20 or is 0x7f. -/
def stringContainsCTLByte (s : GoString) : Bool :=
  s.any fun b => b < 32 || b == 127

/-- ASCII letter. -/
def isAlpha (c : Nat) : Bool := (97 ≤ c && c ≤ 122) || (65 ≤ c && c ≤ 90)

/-- ASCII digit. -/
def isDigit (c : Nat) : Bool := 48 ≤ c && c ≤ 57

/-- Go `ishex`. -/
def ishex (c : Nat) : Bool :=
  (48 ≤ c && c ≤ 57) || (97 ≤ c && c ≤ 102) || (65 ≤ c && c ≤ 70)

/-- Go `unhex`. -/
def unhex (c : Nat) : Nat :=
  if 48 ≤ c && c ≤ 57 then c - 48
  else if 97 ≤ c && c ≤ 102 then c - 97 + 10
  else if 65 ≤ c && c ≤ 70 then c - 65 + 10
  else 0

/-- Go `shouldEscape`: whether byte `c` must be percent-escaped in the given part of
a URL. -/
def shouldEscape (c : Nat) (mode : encoding) : Bool :=
  if isAlpha c || isDigit c then false
  else if (mode == encodeHost || mode == encodeZone) &&
      [33, 36, 38, 39, 40, 41, 42, 43, 44, 59, 61, 58, 91, 93, 60, 62, 34].contains c then
    false
  else if [45, 95, 46, 126].contains c then false
  else if [36, 38, 43, 44, 47, 58, 59, 61, 63, 64].contains c &&
      mode == encodePath then c == 63
  else if [36, 38, 43, 44, 47, 58, 59, 61, 63, 64].contains c &&
      mode == encodePathSegment then c == 47 || c == 59 || c == 44 || c == 63
  else if [36, 38, 43, 44, 47, 58, 59, 61, 63, 64].contains c &&
      mode == encodeUserPassword then c == 64 || c == 47 || c == 63 || c == 58
  else if [36, 38, 43, 44, 47, 58, 59, 61, 63, 64].contains c &&
      mode == encodeQueryComponent then true
  else if [36, 38, 43, 44, 47, 58, 59, 61, 63, 64].contains c &&
      mode == encodeFragment then false
  else if mode == encodeFragment && [33, 40, 41, 42].contains c then false
  else true

/-- The first loop of Go `unescape`: checks that every percent escape is well formed
and, for hosts, that every byte is allowed. -/
def unescapeCheck (mode : encoding) : GoString → Option ParseErr
  | [] => none
  | 37 :: a :: b :: rest =>
    if !(ishex a) || !(ishex b) then some (.EscapeError [37, a, b])
    else if mode == encodeHost && unhex a < 8 && [37, a, b] != [37, 50, 53] then
      some (.EscapeError [37, a, b])
    else if mode == encodeZone && [37, a, b] != [37, 50, 53] &&
        (unhex a * 16 + unhex b) != 32 && shouldEscape (unhex a * 16 + unhex b) encodeHost then
      some (.EscapeError [37, a, b])
    else unescapeCheck mode rest
  | [37, a] => some (.EscapeError [37, a])
  | [37] => some (.EscapeError [37])
  | c :: rest =>
    if (mode == encodeHost || mode == encodeZone) && c < 128 && shouldEscape c encodeHost then
      some (.InvalidHostError [c])
    else unescapeCheck mode rest

/-- The second loop of Go `unescape`: replaces every percent escape by its byte (and,
in query components, `+` by a blank). -/
def unescapeDecode (mode : encoding) : GoString → GoString
  | 37 :: a :: b :: rest => (unhex a * 16 + unhex b) :: unescapeDecode mode rest
  | 43 :: rest => (if mode == encodeQueryComponent then 32 else 43) :: unescapeDecode mode rest
  | c :: rest => c :: unescapeDecode mode rest
  | [] => []

/-- Go `unescape`. -/
def unescape (s : GoString) (mode : encoding) : Except ParseErr GoString :=
  match unescapeCheck mode s with
  | some e => .error e
  | none => .ok (unescapeDecode mode s)

/-- The digit of `upperhex` for a value below 16. -/
def upperhex (n : Nat) : Nat := if n < 10 then 48 + n else 65 + (n - 10)

/-- Go `escape`. -/
def escape (s : GoString) (mode : encoding) : GoString :=
  s.flatMap fun c =>
    if shouldEscape c mode then
      if c == 32 && mode == encodeQueryComponent then [43]
      else [37, upperhex (c / 16 % 16), upperhex (c % 16)]
    else [c]

/-- Go `validEncoded`. -/
def validEncoded (s : GoString) (mode : encoding) : Bool :=
  s.all fun c =>
    [33, 36, 38, 39, 40, 41, 42, 43, 44, 59, 61, 58, 64, 91, 93, 37].contains c ||
      !(shouldEscape c mode)

/-- The loop of Go `getScheme`; `i` is the index of the head of the remaining text. -/
def getSchemeLoop (rawURL : GoString) : Nat → GoString → Except ParseErr (GoString × GoString)
  | _, [] => .ok ([], rawURL)
  | i, c :: cs =>
    if isAlpha c then getSchemeLoop rawURL (i + 1) cs
    else if isDigit c || c == 43 || c == 45 || c == 46 then
      if i == 0 then .ok ([], rawURL) else getSchemeLoop rawURL (i + 1) cs
    else if c == 58 then
      if i == 0 then .error (.text (lit "missing protocol scheme"))
      else .ok (rawURL.take i, cs)
    else .ok ([], rawURL)

/-- Go `getScheme`: splits `scheme:` off the front of a raw URL. -/
def getScheme (rawURL : GoString) : Except ParseErr (GoString × GoString) :=
  getSchemeLoop rawURL 0 rawURL

/-- Go `strings.ToLower` on a scheme (a scheme holds ASCII bytes only). -/
def toLower (s : GoString) : GoString :=
  s.map fun c => if 65 ≤ c && c ≤ 90 then c + 32 else c

/-- Go `validOptionalPort`. -/
def validOptionalPort : GoString → Bool
  | [] => true
  | c :: rest => c == 58 && rest.all fun b => !(b < 48 || b > 57)

/-- Go `validUserinfo`. -/
def validUserinfo (s : GoString) : Bool :=
  s.all fun r =>
    isAlpha r || isDigit r ||
      [45, 46, 95, 58, 126, 33, 36, 38, 39, 40, 41, 42, 43, 44, 59, 61, 37, 64].contains r

/-- Go `parseHost`. -/
def parseHost (host : GoString) : Except ParseErr GoString :=
  if hasPrefix host [91] then
    match lastIndexByte host 93 with
    | none => .error (.text (lit "missing ']' in host"))
    | some i =>
      if !(validOptionalPort (host.drop (i + 1))) then .error (.invalidPort (host.drop (i + 1)))
      else
        match index (host.take i) [37, 50, 53] with
        | some zone =>
          match unescape (host.take zone) encodeHost with
          | .error e => .error e
          | .ok host1 =>
            match unescape ((host.take i).drop zone) encodeZone with
            | .error e => .error e
            | .ok host2 =>
              match unescape (host.drop i) encodeHost with
              | .error e => .error e
              | .ok host3 => .ok (host1 ++ host2 ++ host3)
        | none => unescape host encodeHost
  else
    match lastIndexByte host 58 with
    | some i =>
      if !(validOptionalPort (host.drop i)) then .error (.invalidPort (host.drop i))
      else unescape host encodeHost
    | none => unescape host encodeHost

/-- Go `parseAuthority`. -/
def parseAuthority (authority : GoString) : Except ParseErr (Option Userinfo × GoString) :=
  match lastIndexByte authority 64 with
  | none =>
    match parseHost authority with
    | .error e => .error e
    | .ok host => .ok (none, host)
  | some i =>
    match parseHost (authority.drop (i + 1)) with
    | .error e => .error e
    | .ok host =>
      if !(validUserinfo (authority.take i)) then .error (.text (lit "net/url: invalid userinfo"))
      else if !((authority.take i).contains 58) then
        match unescape (authority.take i) encodeUserPassword with
        | .error e => .error e
        | .ok userinfo => .ok (some ⟨userinfo, [], false⟩, host)
      else
        match unescape (cut 58 (authority.take i)).1 encodeUserPassword with
        | .error e => .error e
        | .ok username =>
          match unescape (cut 58 (authority.take i)).2.1 encodeUserPassword with
          | .error e => .error e
          | .ok password => .ok (some ⟨username, password, true⟩, host)

/-- Go `(*URL).setPath`. -/
def setPath (u : URL) (p : GoString) : Except ParseErr URL :=
  match unescape p encodePath with
  | .error e => .error e
  | .ok path =>
    .ok { u with Path := path, RawPath := if p == escape path encodePath then [] else p }

/-- Go `(*URL).setFragment`. -/
def setFragment (u : URL) (f : GoString) : Except ParseErr URL :=
  match unescape f encodeFragment with
  | .error e => .error e
  | .ok frag =>
    .ok { u with Fragment := frag,
                 RawFragment := if f == escape frag encodeFragment then [] else f }

/-- Go `parse(rawURL, viaRequest)`, the parser behind `Parse` and `ParseRequestURI`. -/
def parse (rawURL : GoString) (viaRequest : Bool) : Except ParseErr URL :=
  if stringContainsCTLByte rawURL then
    .error (.text (lit "net/url: invalid control character in URL"))
  else if rawURL == [] && viaRequest then .error (.text (lit "empty url"))
  else if rawURL == [42] then .ok { Path := [42] }
  else
    match getScheme rawURL with
    | .error e => .error e
    | .ok (scheme, rest0) =>
      let url : URL :=
        if hasSuffix rest0 [63] && rest0.count 63 == 1 then
          { Scheme := toLower scheme, ForceQuery := true }
        else { Scheme := toLower scheme, RawQuery := (cut 63 rest0).2.1 }
      let rest : GoString :=
        if hasSuffix rest0 [63] && rest0.count 63 == 1 then rest0.dropLast
        else (cut 63 rest0).1
      if !(hasPrefix rest [47]) && url.Scheme != [] then .ok { url with Opaque := rest }
      else if !(hasPrefix rest [47]) && viaRequest then
        .error (.text (lit "invalid URI for request"))
      else if !(hasPrefix rest [47]) && (cut 47 rest).1.contains 58 then
        .error (.text (lit "first path segment in URL cannot contain colon"))
      else if (url.Scheme != [] || (!viaRequest && !(hasPrefix rest [47, 47, 47]))) &&
          hasPrefix rest [47, 47] then
        let authority := (cut 47 (rest.drop 2)).1
        let rest1 := if (cut 47 (rest.drop 2)).2.2 then 47 :: (cut 47 (rest.drop 2)).2.1 else []
        match parseAuthority authority with
        | .error e => .error e
        | .ok (user, host) => setPath { url with User := user, Host := host } rest1
      else if url.Scheme != [] && hasPrefix rest [47] then
        setPath { url with OmitHost := true } rest
      else setPath url rest

/-- Go `url.Error`: the error value `Parse` and `ParseRequestURI` return. -/
structure Error where
  Op : GoString
  URL : GoString
  Err : ParseErr
  deriving DecidableEq, Repr

/-- Go `url.ParseRequestURI`. -/
def ParseRequestURI (rawURL : GoString) : Except Error URL :=
  match parse rawURL true with
  | .error err => .error ⟨lit "parse", rawURL, err⟩
  | .ok url => .ok url

/-- Go `url.Parse`: splits off the fragment, then parses the rest. -/
def Parse (rawURL : GoString) : Except Error URL :=
  match parse (cut 35 rawURL).1 false with
  | .error err => .error ⟨lit "parse", (cut 35 rawURL).1, err⟩
  | .ok url =>
    if (cut 35 rawURL).2.1 == [] then .ok url
    else
      match setFragment url (cut 35 rawURL).2.1 with
      | .error err => .error ⟨lit "parse", rawURL, err⟩
      | .ok url1 => .ok url1

/-- Whether `unescape s mode` succeeds with result `t`. -/
def unescapesTo (s : GoString) (mode : encoding) (t : GoString) : Bool :=
  match unescape s mode with
  | .error _ => false
  | .ok p => p == t

/-- Go `(*Userinfo).String`. -/
def Userinfo.String (u : Userinfo) : GoString :=
  escape u.username encodeUserPassword ++
    (if u.passwordSet then 58 :: escape u.password encodeUserPassword else [])

/-- Go `(*URL).EscapedPath`. -/
def URL.EscapedPath (u : URL) : GoString :=
  if u.RawPath != [] && validEncoded u.RawPath encodePath &&
      unescapesTo u.RawPath encodePath u.Path then u.RawPath
  else if u.Path == [42] then [42]
  else escape u.Path encodePath

/-- Go `(*URL).EscapedFragment`. -/
def URL.EscapedFragment (u : URL) : GoString :=
  if u.RawFragment != [] && validEncoded u.RawFragment encodeFragment &&
      unescapesTo u.RawFragment encodeFragment u.Fragment then u.RawFragment
  else escape u.Fragment encodeFragment

/-- The part of Go `(*URL).String` written for a URL that is not opaque: authority and
path.  `buf` is what has been written so far (the scheme and its colon). -/
def URL.hierPart (u : URL) (buf : GoString) : GoString :=
  let buf1 : GoString :=
    if u.Scheme != [] || u.Host != [] || u.User.isSome then
      if u.OmitHost && u.Host == [] && u.User.isNone then buf
      else
        buf ++ (if u.Host != [] || u.Path != [] || u.User.isSome then [47, 47] else []) ++
          (match u.User with
            | some ui => ui.String ++ [64]
            | none => []) ++
          (if u.Host != [] then escape u.Host encodeHost else [])
    else buf
  let path := u.EscapedPath
  let buf2 : GoString :=
    if path != [] && path.head? != some 47 && u.Host != [] then buf1 ++ [47] else buf1
  let buf3 : GoString :=
    if buf2 == [] && (cut 47 path).1.contains 58 then buf2 ++ [46, 47] else buf2
  buf3 ++ path

/-- Go `(*URL).String`. -/
def URL.String (u : URL) : GoString :=
  let buf0 : GoString := if u.Scheme != [] then u.Scheme ++ [58] else []
  let buf1 : GoString := if u.Opaque != [] then buf0 ++ u.Opaque else u.hierPart buf0
  let buf2 : GoString :=
    if u.ForceQuery || u.RawQuery != [] then buf1 ++ 63 :: u.RawQuery else buf1
  if u.Fragment != [] then buf2 ++ 35 :: u.EscapedFragment else buf2

end url

/-! ## What the package receives from outside -/

/-- An error value created outside the package (by `net/url`, `net/http`, the decoders
or the body reader). -/
inductive ExtError
  /-- A `*url.Error` of `net/url`. -/
  | url (e : url.Error)
  /-- The error `net/http: invalid method ...` of `http.NewRequest`. -/
  | invalidMethod (method : GoString)
  /-- Any other error value, represented by its message. -/
  | other (text : GoString)
  deriving DecidableEq, Repr

/-- A response body (`io.ReadCloser`): the bytes the stream delivers, and the error
that ends the stream, if it does not end in a clean end of file. -/
structure Body where
  bytes : GoString
  err : Option ExtError := none
  deriving DecidableEq, Repr

/-- Go `ioutil.ReadAll`: the bytes read and the error that stopped the reading, if
any. -/
def ReadAll (body : Body) : GoString × Option ExtError := (body.bytes, body.err)

namespace http

/-- A `*http.Client`: the default client of `net/http` or some other client. -/
inductive Client
  | DefaultClient
  | other (id : Nat)
  deriving DecidableEq, Repr

/-- Go `http.DefaultClient`. -/
abbrev DefaultClient : Client := Client.DefaultClient

/-- Go `http.Response`, as far as the package looks at it. -/
structure Response where
  StatusCode : Nat
  Body : Body
  deriving DecidableEq, Repr

/-- Go `http.Request`, as built by `NewRequest` without a body. -/
structure Request where
  Method : GoString
  URL : url.URL
  Host : GoString
  deriving DecidableEq, Repr

/-- The token bytes of HTTP (`httpguts.IsTokenRune`). -/
def isToken (c : Nat) : Bool :=
  url.isAlpha c || url.isDigit c ||
    [33, 35, 36, 37, 38, 39, 42, 43, 45, 46, 94, 95, 96, 124, 126].contains c

/-- Go `validMethod`. -/
def validMethod (method : GoString) : Bool :=
  method.length > 0 && method.all isToken

/-- Go `hasPort`: the last colon comes after the last closing bracket. -/
def hasPort (s : GoString) : Bool :=
  match lastIndexByte s 58, lastIndexByte s 93 with
  | some i, some j => i > j
  | some _, none => true
  | none, _ => false

/-- Go `removeEmptyPort`. -/
def removeEmptyPort (host : GoString) : GoString :=
  if hasPort host && hasSuffix host [58] then host.dropLast else host

/-- Go `http.NewRequest(method, url, nil)`. -/
def NewRequest (method rawURL : GoString) : Except ExtError Request :=
  let method1 := if method == [] then lit "GET" else method
  if !(validMethod method1) then .error (.invalidMethod method1)
  else
    match url.Parse rawURL with
    | .error err => .error (.url err)
    | .ok u =>
      .ok { Method := method1, URL := { u with Host := removeEmptyPort u.Host },
            Host := removeEmptyPort u.Host }

end http

/-! ## Data model (`data.go`) -/

/-- An untyped decoded JSON value (`interface{}`), kept as its JSON text: the package
never looks inside one. -/
abbrev JSONValue := GoString

/-- Go `EsearchResult`. -/
structure EsearchResult where
  Count : GoString := []
  Retmax : GoString := []
  Retstart : GoString := []
  IdList : List GoString := []
  TranslationSet : List JSONValue := []
  TranslationStack : List JSONValue := []
  QueryTranslation : GoString := []
  deriving DecidableEq, Repr

/-- Go `EsearchResponse`. -/
structure EsearchResponse where
  Header : List (GoString × GoString) := []
  Result : EsearchResult := {}
  deriving DecidableEq, Repr

/-- Go `EfetchPmAuthor`. -/
structure EfetchPmAuthor where
  Lastname : GoString := []
  Forename : GoString := []
  Initials : GoString := []
  deriving DecidableEq, Repr

/-- Go `EfetchPmArticle`. -/
structure EfetchPmArticle where
  Title : GoString := []
  Abstract : GoString := []
  Authors : List EfetchPmAuthor := []
  Year : GoString := []
  Month : GoString := []
  Day : GoString := []
  deriving DecidableEq, Repr

/-- Go `EfetchPubmedXmlResponse`. -/
structure EfetchPubmedXmlResponse where
  Articles : List EfetchPmArticle := []
  deriving DecidableEq, Repr

/-- Go `EfetchPmcAuthor`. -/
structure EfetchPmcAuthor where
  ContribType : GoString := []
  Surename : GoString := []
  GivenNames : GoString := []
  deriving DecidableEq, Repr

/-- Go `EfetchPmcPubdate`. -/
structure EfetchPmcPubdate where
  PubType : GoString := []
  Year : GoString := []
  Month : GoString := []
  Day : GoString := []
  deriving DecidableEq, Repr

/-- The anonymous struct of the field `Abstract` of `EfetchPmcArticle`. -/
structure EfetchPmcAbstract where
  Data : GoString := []
  deriving DecidableEq, Repr

/-- Go `EfetchPmcArticle`. -/
structure EfetchPmcArticle where
  Title : GoString := []
  Abstract : EfetchPmcAbstract := {}
  Authors : List EfetchPmcAuthor := []
  Pubdate : List EfetchPmcPubdate := []
  deriving DecidableEq, Repr

/-- Go `EfetchPmcXmlResponse`. -/
structure EfetchPmcXmlResponse where
  Articles : List EfetchPmcArticle := []
  deriving DecidableEq, Repr

/-- Go `IdconvRecord`. -/
structure IdconvRecord where
  Pmcid : GoString := []
  Pmid : GoString := []
  Status : GoString := []
  deriving DecidableEq, Repr

/-- Go `IdconvResponse`. -/
structure IdconvResponse where
  Records : List IdconvRecord := []
  deriving DecidableEq, Repr

/-- Go `Client`; `U` is the type of parsed URLs.  The two URL fields are taken to be
non-nil pointers. -/
structure Client (U : Type) where
  EutilsURL : U
  UtilsURL : U
  httpClient : http.Client
  deriving DecidableEq, Repr

/-! ## Results -/

/-- A Go `error` value as the package returns it.  `errors.New` allocates a new value
at every call, so an error the package makes itself is never equal to an error value
it received from outside. -/
inductive Error
  /-- The value of `errors.New(text)`, made by the package. -/
  | New (text : GoString)
  /-- An error value received from outside and passed on as it is. -/
  | ext (e : ExtError)
  deriving DecidableEq, Repr

/-- The dynamic value of the result `response interface{}` of `Efetch`. -/
inductive Response
  /-- The nil interface value. -/
  | nil
  /-- A `string`. -/
  | string (s : GoString)
  /-- A non-nil `*EfetchPubmedXmlResponse`, given by the struct it points to. -/
  | pubmed (r : EfetchPubmedXmlResponse)
  /-- A non-nil `*EfetchPmcXmlResponse`, given by the struct it points to. -/
  | pmc (r : EfetchPmcXmlResponse)
  deriving DecidableEq, Repr

/-- How a call ends: it returns its results, or it panics. -/
inductive Outcome (α : Type)
  | returns (v : α)
  | panics
  deriving DecidableEq, Repr

/-- The calls an operation makes outside the package, as they are recorded; `R` is
the type of requests. -/
inductive Event (R : Type)
  /-- A call `url.ParseRequestURI(rawURL)`. -/
  | parse (rawURL : GoString)
  /-- A call `http.NewRequest(method, url, nil)`. -/
  | newRequest (method url : GoString)
  /-- A call `httpClient.Do(req)`: the request `req`, as `http.NewRequest` built
  it, goes out on the network. -/
  | get (req : R)
  /-- A call `ioutil.ReadAll(body)`. -/
  | readAll
  /-- A call `body.Close()`. -/
  | close
  /-- A call `json.NewDecoder(body).Decode`. -/
  | jsonDecode
  /-- A call `xml.NewDecoder(body).Decode`. -/
  | xmlDecode
  deriving DecidableEq, Repr

/-- Whether an event is an HTTP round trip. -/
def Event.isGet {R : Type} : Event R → Bool
  | .get _ => true
  | _ => false

/-- Whether an event is a call of a decoder. -/
def Event.isDecode {R : Type} : Event R → Bool
  | .jsonDecode => true
  | .xmlDecode => true
  | _ => false

/-- What the decoders do.  A decoder receives the body and the value its target holds
before the call; it gives the value the target holds after the call, and its error.
A JSON decoder called with the address of a pointer variable may leave the pointer
nil (for the JSON text `null`).  An XML decoder called with the address of an
interface variable that holds a non-nil pointer fills the struct pointed to. -/
structure Decoders where
  jsonEsearch : Body → Option EsearchResponse → Option EsearchResponse × Option ExtError
  jsonIdconv : Body → Option IdconvResponse → Option IdconvResponse × Option ExtError
  xmlPubmed : Body → EfetchPubmedXmlResponse → EfetchPubmedXmlResponse × Option ExtError
  xmlPmc : Body → EfetchPmcXmlResponse → EfetchPmcXmlResponse × Option ExtError
  /-- Decoding into an interface variable that holds nil: only the error matters. -/
  xmlNil : Body → Option ExtError

/-- The environment of the package: the library functions it calls and the network.
`U` is the type of parsed URLs, `R` the type of requests. -/
structure Env (U R : Type) where
  /-- Go `url.ParseRequestURI`. -/
  ParseRequestURI : GoString → Except ExtError U
  /-- Go `(*url.URL).String`. -/
  URLString : U → GoString
  /-- Go `http.NewRequest(method, url, nil)`. -/
  NewRequest : GoString → GoString → Except ExtError R
  /-- Go `(*http.Client).Do`: the HTTP round trip. -/
  Do : http.Client → R → Except ExtError http.Response
  decode : Decoders

/-- The environment whose URL functions and request construction are the reference
models of `net/url` and `http.NewRequest`; the network and the decoders are
arbitrary. -/
def goEnv (Do : http.Client → http.Request → Except ExtError http.Response)
    (decode : Decoders) : Env url.URL http.Request where
  ParseRequestURI := fun rawURL =>
    match url.ParseRequestURI rawURL with
    | .error e => .error (.url e)
    | .ok u => .ok u
  URLString := url.URL.String
  NewRequest := http.NewRequest
  Do := Do
  decode := decode

/-! ## The package (`pubmed.go`) -/

/-- The package variable `eutilsURL`. -/
def eutilsURL : GoString := lit "http://eutils.ncbi.nlm.nih.gov/entrez/eutils/"

/-- The package variable `utilsURL`. -/
def utilsURL : GoString := lit "https://www.ncbi.nlm.nih.gov/pmc/utils/"

section
variable {U R : Type}

/-- Go `NewClient`: the client, or nil and the error of the URL parser. -/
def NewClient (env : Env U R) : Option (Client U) × Option Error :=
  match env.ParseRequestURI eutilsURL with
  | .error err => (none, some (.ext err))
  | .ok eutils =>
    match env.ParseRequestURI utilsURL with
    | .error err => (none, some (.ext err))
    | .ok utils => (some ⟨eutils, utils, http.DefaultClient⟩, none)

/-- Go `httpGet`: builds the GET request from the rendered URL and sends that
request; gives the body of the response or the error, and the calls made. -/
def httpGet (env : Env U R) (requestURL : U) (httpClient : http.Client) :
    Except ExtError Body × List (Event R) :=
  match env.NewRequest (lit "GET") (env.URLString requestURL) with
  | .error err => (.error err, [.newRequest (lit "GET") (env.URLString requestURL)])
  | .ok req =>
    match env.Do httpClient req with
    | .error err =>
      (.error err, [.newRequest (lit "GET") (env.URLString requestURL), .get req])
    | .ok resp =>
      (.ok resp.Body, [.newRequest (lit "GET") (env.URLString requestURL), .get req])

/-- The raw URL `Esearch` builds for a query. -/
def esearchRawURL (env : Env U R) (c : Client U) (query : GoString) : GoString :=
  env.URLString c.EutilsURL ++ lit "esearch.fcgi?db=pubmed&retmode=json&term=" ++ query

/-- Go `(*Client).Esearch`: the results `(response, err)` and the calls made. -/
def Esearch (env : Env U R) (c : Client U) (query : GoString) :
    (Option EsearchResponse × Option Error) × List (Event R) :=
  match env.ParseRequestURI (esearchRawURL env c query) with
  | .error err => ((none, some (.ext err)), [.parse (esearchRawURL env c query)])
  | .ok esearchURL =>
    match httpGet env esearchURL c.httpClient with
    | (.error err, t) => ((none, some (.ext err)), .parse (esearchRawURL env c query) :: t)
    | (.ok body, t) =>
      match env.decode.jsonEsearch body (some {}) with
      | (response, some err) =>
        ((response, some (.ext err)),
          .parse (esearchRawURL env c query) :: t ++ [.jsonDecode])
      | (response, none) =>
        ((response, none), .parse (esearchRawURL env c query) :: t ++ [.jsonDecode])

/-- The raw URL `Efetch` builds for its arguments. -/
def efetchRawURL (env : Env U R) (c : Client U) (id db rettype retmode : GoString) :
    GoString :=
  env.URLString c.EutilsURL ++ lit "efetch.fcgi?db=" ++ db ++ lit "&rettype=" ++ rettype ++
    lit "&retmode=" ++ retmode ++ lit "&id=" ++ id

/-- Go `(*Client).Efetch`: the results `(response, err)` and the calls made. -/
def Efetch (env : Env U R) (c : Client U) (id db rettype retmode : GoString) :
    (Response × Option Error) × List (Event R) :=
  if db ≠ lit "pubmed" ∧ db ≠ lit "pmc" then
    ((.nil, some (.New (lit "httpGetJsonEfetch: wrong db"))), [])
  else if retmode ≠ lit "text" ∧ retmode ≠ lit "xml" then
    ((.nil, some (.New (lit "httpGetJsonEfetch: wrong retmode"))), [])
  else
    match env.ParseRequestURI (efetchRawURL env c id db rettype retmode) with
    | .error err =>
      ((.nil, some (.ext err)), [.parse (efetchRawURL env c id db rettype retmode)])
    | .ok efetch =>
      match httpGet env efetch c.httpClient with
      | (.error err, t) =>
        ((.nil, some (.ext err)), .parse (efetchRawURL env c id db rettype retmode) :: t)
      | (.ok body, t) =>
        if retmode = lit "text" then
          match ReadAll body with
          | (_, some e) =>
            ((.nil, some (.ext e)),
              .parse (efetchRawURL env c id db rettype retmode) :: t ++ [.readAll, .close])
          | (respByte, none) =>
            ((.string respByte, none),
              .parse (efetchRawURL env c id db rettype retmode) :: t ++ [.readAll, .close])
        else if retmode = lit "xml" then
          if db = lit "pubmed" then
            match env.decode.xmlPubmed body {} with
            | (r, some err) =>
              ((.pubmed r, some (.ext err)),
                .parse (efetchRawURL env c id db rettype retmode) :: t ++ [.xmlDecode])
            | (r, none) =>
              ((.pubmed r, none),
                .parse (efetchRawURL env c id db rettype retmode) :: t ++ [.xmlDecode])
          else if db = lit "pmc" then
            match env.decode.xmlPmc body {} with
            | (r, some err) =>
              ((.pmc r, some (.ext err)),
                .parse (efetchRawURL env c id db rettype retmode) :: t ++ [.xmlDecode])
            | (r, none) =>
              ((.pmc r, none),
                .parse (efetchRawURL env c id db rettype retmode) :: t ++ [.xmlDecode])
          else
            match env.decode.xmlNil body with
            | some err =>
              ((.nil, some (.ext err)),
                .parse (efetchRawURL env c id db rettype retmode) :: t ++ [.xmlDecode])
            | none =>
              ((.nil, none),
                .parse (efetchRawURL env c id db rettype retmode) :: t ++ [.xmlDecode])
        else ((.nil, none), .parse (efetchRawURL env c id db rettype retmode) :: t)

/-- The raw URL `IDConvert` builds for an id. -/
def idconvRawURL (env : Env U R) (c : Client U) (id : GoString) : GoString :=
  env.URLString c.UtilsURL ++ lit "idconv/v1.0/?format=json&ids=" ++ id

/-- Go `(*Client).IDConvert`: the results `(pmid, pmcid, err)`, or a panic, and the
calls made. -/
def IDConvert (env : Env U R) (c : Client U) (id : GoString) :
    Outcome (GoString × GoString × Option Error) × List (Event R) :=
  match env.ParseRequestURI (idconvRawURL env c id) with
  | .error err => (.returns ([], [], some (.ext err)), [.parse (idconvRawURL env c id)])
  | .ok idconv =>
    match httpGet env idconv c.httpClient with
    | (.error err, t) =>
      (.returns ([], [], some (.ext err)), .parse (idconvRawURL env c id) :: t)
    | (.ok body, t) =>
      match env.decode.jsonIdconv body (some {}) with
      | (_, some _) =>
        (.returns ([], [], some (.New (lit "IDConvert: failed decoding of response"))),
          .parse (idconvRawURL env c id) :: t ++ [.jsonDecode])
      | (none, none) =>
        -- `response.Records` with `response == nil`: nil pointer dereference
        (.panics, .parse (idconvRawURL env c id) :: t ++ [.jsonDecode])
      | (some response, none) =>
        match response.Records with
        | [] =>
          (.returns ([], [], some (.New (lit "IDConvert: no records in response"))),
            .parse (idconvRawURL env c id) :: t ++ [.jsonDecode])
        | record :: _ =>
          (.returns (record.Pmid, record.Pmcid, none),
            .parse (idconvRawURL env c id) :: t ++ [.jsonDecode])

end

/-! ## Sample environments

Concrete networks and decoders, used to run the operations on concrete inputs. -/

/-- The client `NewClient` builds with the reference URL parser. -/
def builtClient : Client url.URL where
  EutilsURL := { Scheme := lit "http", Host := lit "eutils.ncbi.nlm.nih.gov",
                 Path := lit "/entrez/eutils/" }
  UtilsURL := { Scheme := lit "https", Host := lit "www.ncbi.nlm.nih.gov",
                Path := lit "/pmc/utils/" }
  httpClient := http.DefaultClient

/-- A body that reads completely. -/
def sampleBody : Body where
  bytes := lit "\n1. Biochim Biophys Acta. 1976 Sep 28;446(1):179-91.\n"

/-- A network that answers every request with `sampleBody`. -/
def sampleDo : http.Client → http.Request → Except ExtError http.Response :=
  fun _ _ => .ok { StatusCode := 200, Body := sampleBody }

/-- A network on which every round trip fails. -/
def failingDo : http.Client → http.Request → Except ExtError http.Response :=
  fun _ _ => .error (.other (lit "dial tcp: connection refused"))

/-- A conversion response with two records. -/
def sampleIdconv : IdconvResponse where
  Records := [{ Pmcid := lit "PMC3531190", Pmid := lit "23193287" },
              { Pmcid := lit "PMC1", Pmid := lit "1", Status := lit "error" }]

/-- An article set of the PubMed schema. -/
def samplePubmed : EfetchPubmedXmlResponse where
  Articles := [{ Title := lit "Magnetic studies of Chromatium flavocytochrome C552.",
                 Authors := [{ Lastname := lit "Strekas", Forename := lit "T C",
                               Initials := lit "TC" }],
                 Year := lit "1976", Month := lit "Sep", Day := lit "28" }]

/-- An article set of the PMC schema. -/
def samplePmc : EfetchPmcXmlResponse where
  Articles := [{ Title := lit "A title",
                 Authors := [{ ContribType := lit "author", Surename := lit "Doe",
                               GivenNames := lit "J" }] }]

/-- Decoders that succeed on every body. -/
def sampleDecoders : Decoders where
  jsonEsearch := fun _ _ =>
    (some { Result := { Count := lit "1", IdList := [lit "28958124"] } }, none)
  jsonIdconv := fun _ _ => (some sampleIdconv, none)
  xmlPubmed := fun _ _ => (samplePubmed, none)
  xmlPmc := fun _ _ => (samplePmc, none)
  xmlNil := fun _ => some (.other (lit "unknown type interface"))

/-- Decoders that find no record in a conversion response. -/
def emptyDecoders : Decoders :=
  { sampleDecoders with jsonIdconv := fun _ _ => (some {}, none) }

/-- Decoders that fail on every body and leave their target as it was. -/
def failingDecoders : Decoders where
  jsonEsearch := fun _ t => (t, some (.other (lit "unexpected EOF")))
  jsonIdconv := fun _ t => (t, some (.other (lit "unexpected EOF")))
  xmlPubmed := fun _ t => (t, some (.other (lit "unexpected EOF")))
  xmlPmc := fun _ t => (t, some (.other (lit "unexpected EOF")))
  xmlNil := fun _ => some (.other (lit "unexpected EOF"))

/-- The query of the package's search test. -/
def sampleQuery : GoString := lit "cancer&retmax=1&mindate=2017/09/28&maxdate=2017/09/29"

/-- The request URL of `Esearch` for `sampleQuery`, parsed. -/
def sampleEsearchURL : url.URL where
  Scheme := lit "http"
  Host := lit "eutils.ncbi.nlm.nih.gov"
  Path := lit "/entrez/eutils/esearch.fcgi"
  RawQuery :=
    lit "db=pubmed&retmode=json&term=cancer&retmax=1&mindate=2017/09/28&maxdate=2017/09/29"

/-- The URL with the scheme, host and path of the search endpoint and the given query
after "term=" in its raw query. -/
def esearchURL (query : GoString) : url.URL where
  Scheme := lit "http"
  Host := lit "eutils.ncbi.nlm.nih.gov"
  Path := lit "/entrez/eutils/esearch.fcgi"
  RawQuery := lit "db=pubmed&retmode=json&term=" ++ query

/-- The GET request for `esearchURL query`. -/
def esearchRequest (query : GoString) : http.Request where
  Method := lit "GET"
  URL := esearchURL query
  Host := lit "eutils.ncbi.nlm.nih.gov"

/-- The request URL of `Efetch` for id "9997", rettype "abstract" and the given `db`
and `retmode`, parsed. -/
def sampleEfetchURL (db retmode : GoString) : url.URL where
  Scheme := lit "http"
  Host := lit "eutils.ncbi.nlm.nih.gov"
  Path := lit "/entrez/eutils/efetch.fcgi"
  RawQuery := lit "db=" ++ db ++ lit "&rettype=abstract&retmode=" ++ retmode ++ lit "&id=9997"

/-- The request URL of `IDConvert` for id "23193287", parsed. -/
def sampleIdconvURL : url.URL where
  Scheme := lit "https"
  Host := lit "www.ncbi.nlm.nih.gov"
  Path := lit "/pmc/utils/idconv/v1.0/"
  RawQuery := lit "format=json&ids=23193287"

/-! ## Theorems -/

section
variable {U R : Type}

/-- C1. `Efetch` goes past its input checks (its first outside call, the parsing of
the request URL, is made) exactly when `db` is "pubmed" or "pmc" and `retmode` is
"text" or "xml".  For every other pair it returns the nil response and an error of
its own, and makes no outside call at all: no URL is parsed, no request is built and
none is sent, in every environment. -/
theorem Efetch_validation (env : Env U R) (c : Client U) (id db rettype retmode : GoString) :
    (((db = lit "pubmed" ∨ db = lit "pmc") ∧ (retmode = lit "text" ∨ retmode = lit "xml")) ↔
      (Efetch env c id db rettype retmode).2.head? =
        some (Event.parse (efetchRawURL env c id db rettype retmode))) ∧
    (¬((db = lit "pubmed" ∨ db = lit "pmc") ∧ (retmode = lit "text" ∨ retmode = lit "xml")) →
      (Efetch env c id db rettype retmode).1.1 = Response.nil ∧
      (∃ text, (Efetch env c id db rettype retmode).1.2 = some (Error.New text)) ∧
      (Efetch env c id db rettype retmode).2 = []) := by
  by_cases hdb : db ≠ lit "pubmed" ∧ db ≠ lit "pmc"
  · have h : ¬(db = lit "pubmed" ∨ db = lit "pmc") := by tauto
    simp [Efetch, hdb, h]
  · by_cases hm : retmode ≠ lit "text" ∧ retmode ≠ lit "xml"
    · have h : ¬(retmode = lit "text" ∨ retmode = lit "xml") := by tauto
      simp [Efetch, hdb, hm, h]
    · have h1 : db = lit "pubmed" ∨ db = lit "pmc" := by tauto
      have h2 : retmode = lit "text" ∨ retmode = lit "xml" := by tauto
      refine ⟨⟨fun _ => ?_, fun _ => ⟨h1, h2⟩⟩, fun h => absurd ⟨h1, h2⟩ h⟩
      unfold Efetch
      rw [if_neg hdb, if_neg hm]
      repeat' split
      all_goals rfl

/-- The results of `Efetch` in text mode once the body has been received. -/
theorem Efetch_text_results (env : Env U R) (c : Client U) (id db rettype : GoString)
    (u : U) (body : Body) (hdb : db = lit "pubmed" ∨ db = lit "pmc")
    (hparse : env.ParseRequestURI (efetchRawURL env c id db rettype (lit "text")) = .ok u)
    (hget : (httpGet env u c.httpClient).1 = .ok body) :
    (Efetch env c id db rettype (lit "text")).1 =
      match body.err with
      | some e => (Response.nil, some (Error.ext e))
      | none => (Response.string body.bytes, none) := by
  have hdb1 : ¬(db ≠ lit "pubmed" ∧ db ≠ lit "pmc") := by tauto
  have hm : ¬(lit "text" ≠ lit "text" ∧ lit "text" ≠ lit "xml") := by simp
  rcases hg : httpGet env u c.httpClient with ⟨r, t⟩
  rw [hg] at hget
  simp only at hget
  subst hget
  unfold Efetch
  rw [if_neg hdb1, if_neg hm]
  simp only [hparse, hg, ReadAll, if_true]
  cases body.err <;> rfl

/-- The results of `Efetch` in xml mode once the body has been received. -/
theorem Efetch_xml_results (env : Env U R) (c : Client U) (id db rettype : GoString)
    (u : U) (body : Body) (hdb : db = lit "pubmed" ∨ db = lit "pmc")
    (hparse : env.ParseRequestURI (efetchRawURL env c id db rettype (lit "xml")) = .ok u)
    (hget : (httpGet env u c.httpClient).1 = .ok body) :
    (Efetch env c id db rettype (lit "xml")).1 =
      if db = lit "pubmed" then
        (Response.pubmed (env.decode.xmlPubmed body {}).1,
          (env.decode.xmlPubmed body {}).2.map Error.ext)
      else
        (Response.pmc (env.decode.xmlPmc body {}).1,
          (env.decode.xmlPmc body {}).2.map Error.ext) := by
  have hdb1 : ¬(db ≠ lit "pubmed" ∧ db ≠ lit "pmc") := by tauto
  have hm : ¬(lit "xml" ≠ lit "text" ∧ lit "xml" ≠ lit "xml") := by simp
  have hx : lit "xml" ≠ lit "text" := by decide
  rcases hg : httpGet env u c.httpClient with ⟨r, t⟩
  rw [hg] at hget
  simp only at hget
  subst hget
  unfold Efetch
  rw [if_neg hdb1, if_neg hm]
  simp only [hparse, hg, if_neg hx, if_true]
  by_cases hp : db = lit "pubmed"
  · rw [if_pos hp, if_pos hp]
    rcases hd : env.decode.xmlPubmed body {} with ⟨r, _ | e⟩ <;> rfl
  · have hc : db = lit "pmc" := by tauto
    rw [if_neg hp, if_neg hp, if_pos hc]
    rcases hd : env.decode.xmlPmc body {} with ⟨r, _ | e⟩ <;> rfl

/-- The results of `IDConvert` once the body has been received. -/
theorem IDConvert_results (env : Env U R) (c : Client U) (id : GoString) (u : U) (body : Body)
    (hparse : env.ParseRequestURI (idconvRawURL env c id) = .ok u)
    (hget : (httpGet env u c.httpClient).1 = .ok body) :
    (IDConvert env c id).1 =
      match env.decode.jsonIdconv body (some {}) with
      | (_, some _) =>
        .returns ([], [], some (.New (lit "IDConvert: failed decoding of response")))
      | (none, none) => .panics
      | (some response, none) =>
        match response.Records with
        | [] => .returns ([], [], some (.New (lit "IDConvert: no records in response")))
        | record :: _ => .returns (record.Pmid, record.Pmcid, none) := by
  rcases hg : httpGet env u c.httpClient with ⟨r, t⟩
  rw [hg] at hget
  simp only at hget
  subst hget
  unfold IDConvert
  simp only [hparse, hg]
  rcases hd : env.decode.jsonIdconv body (some {}) with ⟨_ | response, _ | e⟩
  · rfl
  · rfl
  · rcases hr : response.Records with _ | ⟨record, rest⟩ <;> simp [hr]
  · rfl

/-- The results of `Esearch` once the body has been received. -/
theorem Esearch_results (env : Env U R) (c : Client U) (query : GoString) (u : U)
    (body : Body) (hparse : env.ParseRequestURI (esearchRawURL env c query) = .ok u)
    (hget : (httpGet env u c.httpClient).1 = .ok body) :
    (Esearch env c query).1 =
      ((env.decode.jsonEsearch body (some {})).1,
        (env.decode.jsonEsearch body (some {})).2.map Error.ext) := by
  rcases hg : httpGet env u c.httpClient with ⟨r, t⟩
  rw [hg] at hget
  simp only at hget
  subst hget
  unfold Esearch
  simp only [hparse, hg]
  rcases hd : env.decode.jsonEsearch body (some {}) with ⟨r, _ | e⟩ <;> rfl

/-- The two errors `IDConvert` makes itself have different texts. -/
theorem idconv_errors_ne :
    Error.New (lit "IDConvert: no records in response") ≠
      Error.New (lit "IDConvert: failed decoding of response") := by
  decide

/-- C3. In text mode, for `db` "pubmed" or "pmc" and every `id` and `rettype`: when
the request URL is built and the transport (`httpGet`) succeeds with a body that
reads to its end without error, `Efetch` returns no error and the string made of
exactly the bytes of the body; the result does not mention `db`. -/
theorem Efetch_text_exact_body (env : Env U R) (c : Client U) (id db rettype : GoString)
    (u : U) (body : Body) (hdb : db = lit "pubmed" ∨ db = lit "pmc")
    (hparse : env.ParseRequestURI (efetchRawURL env c id db rettype (lit "text")) = .ok u)
    (hget : (httpGet env u c.httpClient).1 = .ok body)
    (hread : body.err = none) :
    (Efetch env c id db rettype (lit "text")).1 = (Response.string body.bytes, none) := by
  rw [Efetch_text_results env c id db rettype u body hdb hparse hget, hread]

/-- C4. When the request URL is built, the transport succeeds and the body decodes to
a response whose record list is not empty, `IDConvert` returns no error and the pmid
and pmcid of the first record.  Any other run that decodes a response whose first
record has the same pmid and pmcid returns the same results, whatever the later
records and the status fields are. -/
theorem IDConvert_first_record (env : Env U R) (c : Client U) (id : GoString) (u : U)
    (body : Body) (response : IdconvResponse) (first : IdconvRecord)
    (others : List IdconvRecord)
    (hparse : env.ParseRequestURI (idconvRawURL env c id) = .ok u)
    (hget : (httpGet env u c.httpClient).1 = .ok body)
    (hdec : env.decode.jsonIdconv body (some {}) = (some response, none))
    (hrec : response.Records = first :: others) :
    (IDConvert env c id).1 = .returns (first.Pmid, first.Pmcid, none) ∧
    ∀ (U' R' : Type) (env' : Env U' R') (c' : Client U') (id' : GoString) (u' : U')
      (body' : Body) (response' : IdconvResponse) (first' : IdconvRecord)
      (others' : List IdconvRecord),
      env'.ParseRequestURI (idconvRawURL env' c' id') = .ok u' →
      (httpGet env' u' c'.httpClient).1 = .ok body' →
      env'.decode.jsonIdconv body' (some {}) = (some response', none) →
      response'.Records = first' :: others' →
      first'.Pmid = first.Pmid → first'.Pmcid = first.Pmcid →
      (IDConvert env' c' id').1 = (IDConvert env c id).1 := by
  have h1 : (IDConvert env c id).1 = .returns (first.Pmid, first.Pmcid, none) := by
    rw [IDConvert_results env c id u body hparse hget, hdec]
    simp only [hrec]
  refine ⟨h1, ?_⟩
  intro U' R' env' c' id' u' body' response' first' others' hp hg hd hr e1 e2
  rw [h1, IDConvert_results env' c' id' u' body' hp hg, hd]
  simp only [hr, e1, e2]

/-- C5. When the request URL is built, the transport succeeds and the body decodes
without error to a response with no records, `IDConvert` returns empty pmid and pmcid
and the error "IDConvert: no records in response".  That error differs from the error
of every run of `IDConvert` in which decoding fails, and from every error value that
comes from outside the package, such as a transport error. -/
theorem IDConvert_no_records (env : Env U R) (c : Client U) (id : GoString) (u : U)
    (body : Body) (response : IdconvResponse)
    (hparse : env.ParseRequestURI (idconvRawURL env c id) = .ok u)
    (hget : (httpGet env u c.httpClient).1 = .ok body)
    (hdec : env.decode.jsonIdconv body (some {}) = (some response, none))
    (hrec : response.Records = []) :
    (IDConvert env c id).1 =
      .returns ([], [], some (.New (lit "IDConvert: no records in response"))) ∧
    (∀ (U' R' : Type) (env' : Env U' R') (c' : Client U') (id' : GoString) (u' : U')
      (body' : Body) (r' : Option IdconvResponse) (e' : ExtError),
      env'.ParseRequestURI (idconvRawURL env' c' id') = .ok u' →
      (httpGet env' u' c'.httpClient).1 = .ok body' →
      env'.decode.jsonIdconv body' (some {}) = (r', some e') →
      ∃ err, (IDConvert env' c' id').1 = .returns ([], [], some err) ∧
        err ≠ .New (lit "IDConvert: no records in response")) ∧
    ∀ e : ExtError, Error.ext e ≠ .New (lit "IDConvert: no records in response") := by
  refine ⟨?_, ?_, fun e h => by cases h⟩
  · rw [IDConvert_results env c id u body hparse hget, hdec]
    simp only [hrec]
  · intro U' R' env' c' id' u' body' r' e' hp hg hd
    refine ⟨_, ?_, fun h => idconv_errors_ne h.symm⟩
    rw [IDConvert_results env' c' id' u' body' hp hg, hd]
    cases r' <;> rfl

/-- What `httpGet` gives when the request is built and the round trip fails. -/
theorem httpGet_of_Do_error (env : Env U R) (u : U) (h : http.Client) (req : R) (e : ExtError)
    (hreq : env.NewRequest (lit "GET") (env.URLString u) = .ok req)
    (hdo : env.Do h req = .error e) :
    httpGet env u h =
      (.error e, [.newRequest (lit "GET") (env.URLString u), .get req]) := by
  simp only [httpGet, hreq, hdo]

/-- C7. In xml mode, when the request URL is built and the transport succeeds: if the
PubMed decoder succeeds and `db` is "pubmed", `Efetch` returns a pointer to the
`EfetchPubmedXmlResponse` it decoded, and no error; if the PMC decoder succeeds and
`db` is "pmc", it returns a pointer to the `EfetchPmcXmlResponse` it decoded, and no
error.  Whenever `Efetch` returns without error in xml mode, its response is one of
these two pointers, the one that goes with `db`: it is neither a string nor nil. -/
theorem Efetch_xml_schema (env : Env U R) (c : Client U) (id db rettype : GoString)
    (u : U) (body : Body)
    (hparse : env.ParseRequestURI (efetchRawURL env c id db rettype (lit "xml")) = .ok u)
    (hget : (httpGet env u c.httpClient).1 = .ok body) :
    (db = lit "pubmed" → ∀ r, env.decode.xmlPubmed body {} = (r, none) →
      (Efetch env c id db rettype (lit "xml")).1 = (Response.pubmed r, none)) ∧
    (db = lit "pmc" → ∀ r, env.decode.xmlPmc body {} = (r, none) →
      (Efetch env c id db rettype (lit "xml")).1 = (Response.pmc r, none)) ∧
    (∀ resp, (Efetch env c id db rettype (lit "xml")).1 = (resp, none) →
      (db = lit "pubmed" ∧ resp = Response.pubmed (env.decode.xmlPubmed body {}).1) ∨
      (db = lit "pmc" ∧ resp = Response.pmc (env.decode.xmlPmc body {}).1)) := by
  have hne : lit "pmc" ≠ lit "pubmed" := by decide
  refine ⟨fun hdb r hr => ?_, fun hdb r hr => ?_, fun resp hresp => ?_⟩
  · rw [Efetch_xml_results env c id db rettype u body (Or.inl hdb) hparse hget, if_pos hdb, hr]
    rfl
  · rw [Efetch_xml_results env c id db rettype u body (Or.inr hdb) hparse hget,
      if_neg (by rw [hdb]; exact hne), hr]
    rfl
  · by_cases hdb : db = lit "pubmed" ∨ db = lit "pmc"
    · rw [Efetch_xml_results env c id db rettype u body hdb hparse hget] at hresp
      by_cases hp : db = lit "pubmed"
      · rw [if_pos hp] at hresp
        exact Or.inl ⟨hp, (congrArg Prod.fst hresp).symm⟩
      · rw [if_neg hp] at hresp
        exact Or.inr ⟨by tauto, (congrArg Prod.fst hresp).symm⟩
    · have h1 : db ≠ lit "pubmed" ∧ db ≠ lit "pmc" := by tauto
      simp [Efetch, h1] at hresp

/-- C8. When the decoder fails with error `e` on the body received: `Esearch` returns
`e` itself as its error, and so does `Efetch` in xml mode, for either database;
`IDConvert` returns empty pmid and pmcid and the one error "IDConvert: failed
decoding of response", in which `e` does not occur.  That error differs from the
error "IDConvert: no records in response" and from every error value that comes from
outside the package, such as a transport error. -/
theorem decode_failure (env : Env U R) (c : Client U) (body : Body) (e : ExtError) :
    (∀ query u r, env.ParseRequestURI (esearchRawURL env c query) = .ok u →
      (httpGet env u c.httpClient).1 = .ok body →
      env.decode.jsonEsearch body (some {}) = (r, some e) →
      (Esearch env c query).1.2 = some (Error.ext e)) ∧
    (∀ id rettype u r,
      env.ParseRequestURI (efetchRawURL env c id (lit "pubmed") rettype (lit "xml")) = .ok u →
      (httpGet env u c.httpClient).1 = .ok body →
      env.decode.xmlPubmed body {} = (r, some e) →
      (Efetch env c id (lit "pubmed") rettype (lit "xml")).1.2 = some (Error.ext e)) ∧
    (∀ id rettype u r,
      env.ParseRequestURI (efetchRawURL env c id (lit "pmc") rettype (lit "xml")) = .ok u →
      (httpGet env u c.httpClient).1 = .ok body →
      env.decode.xmlPmc body {} = (r, some e) →
      (Efetch env c id (lit "pmc") rettype (lit "xml")).1.2 = some (Error.ext e)) ∧
    (∀ id u r, env.ParseRequestURI (idconvRawURL env c id) = .ok u →
      (httpGet env u c.httpClient).1 = .ok body →
      env.decode.jsonIdconv body (some {}) = (r, some e) →
      (IDConvert env c id).1 =
        .returns ([], [], some (.New (lit "IDConvert: failed decoding of response")))) ∧
    Error.New (lit "IDConvert: failed decoding of response") ≠
      Error.New (lit "IDConvert: no records in response") ∧
    ∀ e' : ExtError, Error.ext e' ≠ .New (lit "IDConvert: failed decoding of response") := by
  have hne : lit "pmc" ≠ lit "pubmed" := by decide
  refine ⟨?_, ?_, ?_, ?_, fun h => idconv_errors_ne h.symm, fun e' h => by cases h⟩
  · intro query u r hp hg hd
    rw [Esearch_results env c query u body hp hg, hd]
    rfl
  · intro id rettype u r hp hg hd
    rw [Efetch_xml_results env c id _ rettype u body (Or.inl rfl) hp hg, if_pos rfl, hd]
    rfl
  · intro id rettype u r hp hg hd
    rw [Efetch_xml_results env c id _ rettype u body (Or.inr rfl) hp hg, if_neg hne, hd]
    rfl
  · intro id u r hp hg hd
    rw [IDConvert_results env c id u body hp hg, hd]
    cases r <;> rfl

/-- C9. When the request URL is built, the GET request is built from it and its
round trip fails with error `e`: `Esearch` returns the nil response and `e` itself;
`Efetch`, for an accepted `db` and `retmode`, returns the nil response and `e`
itself; `IDConvert` returns empty pmid and pmcid and `e` itself.  In each case the
outside calls are the parsing of the URL, the building of the request and the one
round trip, made with the request that was built: no decoder is called and no second
request is sent. -/
theorem transport_failure (env : Env U R) (c : Client U) (e : ExtError) :
    (∀ query u req, env.ParseRequestURI (esearchRawURL env c query) = .ok u →
      env.NewRequest (lit "GET") (env.URLString u) = .ok req →
      env.Do c.httpClient req = .error e →
      Esearch env c query =
        ((none, some (Error.ext e)),
          [.parse (esearchRawURL env c query), .newRequest (lit "GET") (env.URLString u),
           .get req])) ∧
    (∀ id db rettype retmode u req, (db = lit "pubmed" ∨ db = lit "pmc") →
      (retmode = lit "text" ∨ retmode = lit "xml") →
      env.ParseRequestURI (efetchRawURL env c id db rettype retmode) = .ok u →
      env.NewRequest (lit "GET") (env.URLString u) = .ok req →
      env.Do c.httpClient req = .error e →
      Efetch env c id db rettype retmode =
        ((Response.nil, some (Error.ext e)),
          [.parse (efetchRawURL env c id db rettype retmode),
           .newRequest (lit "GET") (env.URLString u), .get req])) ∧
    (∀ id u req, env.ParseRequestURI (idconvRawURL env c id) = .ok u →
      env.NewRequest (lit "GET") (env.URLString u) = .ok req →
      env.Do c.httpClient req = .error e →
      IDConvert env c id =
        (.returns ([], [], some (Error.ext e)),
          [.parse (idconvRawURL env c id), .newRequest (lit "GET") (env.URLString u),
           .get req])) := by
  refine ⟨?_, ?_, ?_⟩
  · intro query u req hp hr hd
    simp only [Esearch, hp, httpGet_of_Do_error env u c.httpClient req e hr hd]
  · intro id db rettype retmode u req hdb hm hp hr hd
    have hdb1 : ¬(db ≠ lit "pubmed" ∧ db ≠ lit "pmc") := by tauto
    have hm1 : ¬(retmode ≠ lit "text" ∧ retmode ≠ lit "xml") := by tauto
    unfold Efetch
    rw [if_neg hdb1, if_neg hm1]
    simp only [hp, httpGet_of_Do_error env u c.httpClient req e hr hd]
  · intro id u req hp hr hd
    simp only [IDConvert, hp, httpGet_of_Do_error env u c.httpClient req e hr hd]

end

/-! ### Facts about the reference URL model on the URLs of the package -/

/-- Cutting at a separator that does not occur before its first written occurrence. -/
theorem cut_append_of_not_mem (sep : Nat) (p r : GoString) (h : sep ∉ p) :
    cut sep (p ++ sep :: r) = (p, r, true) := by
  induction p with
  | nil => simp [cut]
  | cons a p ih =>
    have ha : a ≠ sep := fun e => h (by simp [e])
    have hp : sep ∉ p := fun e => h (by simp [e])
    simp [cut, ha, ih hp]

/-- A string has the one-byte suffix `a` exactly when its last byte is `a`. -/
theorem hasSuffix_singleton (s : GoString) (a : Nat) :
    hasSuffix s [a] = true ↔ s.getLast? = some a := by
  unfold hasSuffix
  rw [List.getLast?_eq_head?_reverse]
  cases s.reverse with
  | nil => simp [hasPrefix]
  | cons b t => simp [hasPrefix]

/-- The raw URL of `Esearch`, split at its scheme and at its question mark. -/
theorem esearch_raw_eq (q : GoString) :
    eutilsURL ++ lit "esearch.fcgi?db=pubmed&retmode=json&term=" ++ q =
      lit "http:" ++ (lit "//eutils.ncbi.nlm.nih.gov/entrez/eutils/esearch.fcgi" ++
        63 :: (lit "db=pubmed&retmode=json&term=" ++ q)) := by
  have h : eutilsURL ++ lit "esearch.fcgi?db=pubmed&retmode=json&term=" =
      lit "http:" ++ (lit "//eutils.ncbi.nlm.nih.gov/entrez/eutils/esearch.fcgi" ++
        63 :: lit "db=pubmed&retmode=json&term=") := by decide
  rw [h]
  simp only [List.append_assoc, List.cons_append]

/-- The scheme of a raw URL that starts with `http:`. -/
theorem getScheme_http (rest : GoString) :
    url.getScheme (lit "http:" ++ rest) = .ok (lit "http", rest) := rfl

/-- A raw URL with a question mark followed by a text that ends in `=` and a tail
never takes the branch of `parse` for a lone final question mark. -/
theorem no_force_query (p q0 q : GoString) (hq0 : q0.getLast? = some 61) :
    (hasSuffix (p ++ 63 :: (q0 ++ q)) [63] && (p ++ 63 :: (q0 ++ q)).count 63 == 1) = false := by
  rw [Bool.and_eq_false_iff]
  by_cases hc : (p ++ 63 :: (q0 ++ q)).count 63 = 1
  · left
    rw [Bool.eq_false_iff]
    intro hs
    rw [hasSuffix_singleton] at hs
    rcases List.eq_nil_or_concat q with rfl | ⟨q', a, rfl⟩
    · simp [List.getLast?_append, List.getLast?_cons, hq0] at hs
    · have ha : a = 63 := by
        simpa [List.getLast?_append, List.getLast?_cons, ← List.append_assoc] using hs
      subst ha
      simp [List.count_append, List.count_cons] at hc
      omega
  · right
    simpa using hc

/-- The raw URL of `Esearch` holds a control byte exactly when the query does. -/
theorem ctl_esearch (q : GoString) :
    url.stringContainsCTLByte
        (eutilsURL ++ lit "esearch.fcgi?db=pubmed&retmode=json&term=" ++ q) =
      url.stringContainsCTLByte q := by
  rw [esearch_raw_eq]
  unfold url.stringContainsCTLByte
  rw [List.any_append, List.any_append, List.any_cons, List.any_append]
  have h1 : (lit "http:").any (fun b => b < 32 || b == 127) = false := by decide
  have h2 : (lit "//eutils.ncbi.nlm.nih.gov/entrez/eutils/esearch.fcgi").any
      (fun b => b < 32 || b == 127) = false := by decide
  have h3 : (lit "db=pubmed&retmode=json&term=").any (fun b => b < 32 || b == 127) = false := by
    decide
  rw [h1, h2, h3]
  simp

/-- What the reference `parse` makes of the raw URL of `Esearch`, in either mode: it
fails on a query with a control byte and otherwise keeps the query, byte for byte,
in `RawQuery`. -/
theorem parse_esearch_via (q : GoString) (viaRequest : Bool) :
    url.parse (eutilsURL ++ lit "esearch.fcgi?db=pubmed&retmode=json&term=" ++ q) viaRequest =
      if url.stringContainsCTLByte q then
        .error (.text (lit "net/url: invalid control character in URL"))
      else .ok (esearchURL q) := by
  have hc := ctl_esearch q
  by_cases h : url.stringContainsCTLByte q = true
  · rw [h] at hc
    simp only [url.parse, hc, h, if_true]
  · rw [Bool.not_eq_true] at h
    rw [h] at hc
    rw [esearch_raw_eq] at hc ⊢
    have hcut := cut_append_of_not_mem 63
      (lit "//eutils.ncbi.nlm.nih.gov/entrez/eutils/esearch.fcgi")
      (lit "db=pubmed&retmode=json&term=" ++ q) (by decide)
    have hf := no_force_query (lit "//eutils.ncbi.nlm.nih.gov/entrez/eutils/esearch.fcgi")
      (lit "db=pubmed&retmode=json&term=") q (by decide)
    unfold url.parse
    rw [hc, getScheme_http]
    simp only [hf, hcut, h]
    cases viaRequest <;> rfl

/-- What the reference `ParseRequestURI` makes of the raw URL of `Esearch`. -/
theorem parse_esearch (q : GoString) :
    url.ParseRequestURI (eutilsURL ++ lit "esearch.fcgi?db=pubmed&retmode=json&term=" ++ q) =
      if url.stringContainsCTLByte q then
        .error ⟨lit "parse", eutilsURL ++ lit "esearch.fcgi?db=pubmed&retmode=json&term=" ++ q,
          .text (lit "net/url: invalid control character in URL")⟩
      else .ok (esearchURL q) := by
  unfold url.ParseRequestURI
  rw [parse_esearch_via]
  by_cases h : url.stringContainsCTLByte q = true
  · simp only [h, if_true]
  · rw [Bool.not_eq_true] at h
    simp only [h, Bool.false_eq_true, if_false]

/-- The URL parsed from the raw URL of `Esearch` renders back to that raw URL. -/
theorem String_esearch (q : GoString) :
    (esearchURL q).String =
      eutilsURL ++ lit "esearch.fcgi?db=pubmed&retmode=json&term=" ++ q := by
  rw [esearch_raw_eq]
  rfl

/-- Cutting at a separator that does not occur. -/
theorem cut_of_not_mem (sep : Nat) (s : GoString) (h : sep ∉ s) : cut sep s = (s, [], false) := by
  induction s with
  | nil => rfl
  | cons a s ih =>
    have ha : a ≠ sep := fun e => h (by simp [e])
    have hs : sep ∉ s := fun e => h (by simp [e])
    simp [cut, ha, ih hs]

/-- The raw URL of `Esearch` has a number sign only if the query has one. -/
theorem no_fragment_esearch (q : GoString) (h : 35 ∉ q) :
    35 ∉ eutilsURL ++ lit "esearch.fcgi?db=pubmed&retmode=json&term=" ++ q := by
  have h1 : 35 ∉ eutilsURL ++ lit "esearch.fcgi?db=pubmed&retmode=json&term=" := by decide
  intro hm
  rcases List.mem_append.mp hm with hm | hm
  · exact h1 hm
  · exact h hm

/-- What the reference `http.NewRequest` makes of the raw URL of `Esearch` when the
query has no number sign and no control byte: the request whose URL is the one
`ParseRequestURI` gives. -/
theorem NewRequest_esearch (q : GoString) (hfrag : 35 ∉ q)
    (hctl : url.stringContainsCTLByte q = false) :
    http.NewRequest (lit "GET")
        (eutilsURL ++ lit "esearch.fcgi?db=pubmed&retmode=json&term=" ++ q) =
      .ok (esearchRequest q) := by
  have hm : (if lit "GET" == [] then lit "GET" else lit "GET") = lit "GET" := rfl
  have hv : http.validMethod (lit "GET") = true := by decide
  have hcut := cut_of_not_mem 35 _ (no_fragment_esearch q hfrag)
  have hp : url.Parse (eutilsURL ++ lit "esearch.fcgi?db=pubmed&retmode=json&term=" ++ q) =
      .ok (esearchURL q) := by
    unfold url.Parse
    rw [hcut]
    simp only [parse_esearch_via, hctl, Bool.false_eq_true, if_false]
    rfl
  unfold http.NewRequest
  simp only [hm, hv, hp]
  rfl

/-- The GET events of a run of `Esearch`, in any environment. -/
theorem Esearch_gets_of_env {U R : Type} (env : Env U R) (c : Client U) (query : GoString) :
    (Esearch env c query).2.filter Event.isGet =
      match env.ParseRequestURI (esearchRawURL env c query) with
      | .error _ => []
      | .ok u =>
        match env.NewRequest (lit "GET") (env.URLString u) with
        | .error _ => []
        | .ok req => [Event.get req] := by
  unfold Esearch
  cases hp : env.ParseRequestURI (esearchRawURL env c query) with
  | error e => simp [Event.isGet]
  | ok u =>
    cases hreq : env.NewRequest (lit "GET") (env.URLString u) with
    | error e => simp [httpGet, hreq, Event.isGet]
    | ok req =>
      cases hdo : env.Do c.httpClient req with
      | error e => simp [httpGet, hreq, hdo, Event.isGet]
      | ok resp =>
        rcases hd : env.decode.jsonEsearch resp.Body (some {}) with ⟨r, _ | e⟩ <;>
          simp [httpGet, hreq, hdo, hd, Event.isGet]

/-- The GET events of a run of `Esearch` in the reference environment, for the client
`NewClient` builds. -/
theorem Esearch_gets (Do : http.Client → http.Request → Except ExtError http.Response)
    (decode : Decoders) (query : GoString) :
    (Esearch (goEnv Do decode) builtClient query).2.filter Event.isGet =
      match url.ParseRequestURI
          (eutilsURL ++ lit "esearch.fcgi?db=pubmed&retmode=json&term=" ++ query),
        http.NewRequest (lit "GET")
          (eutilsURL ++ lit "esearch.fcgi?db=pubmed&retmode=json&term=" ++ query) with
      | .ok _, .ok req => [Event.get req]
      | _, _ => [] := by
  have hraw : esearchRawURL (goEnv Do decode) builtClient query =
      eutilsURL ++ lit "esearch.fcgi?db=pubmed&retmode=json&term=" ++ query := rfl
  rw [Esearch_gets_of_env, hraw]
  have hP : (goEnv Do decode).ParseRequestURI = fun rawURL =>
      match url.ParseRequestURI rawURL with
      | .error e => .error (.url e)
      | .ok u => .ok u := rfl
  have hS : (goEnv Do decode).URLString = url.URL.String := rfl
  have hN : (goEnv Do decode).NewRequest = http.NewRequest := rfl
  rw [hP, hS, hN]
  simp only [parse_esearch]
  by_cases h : url.stringContainsCTLByte query = true
  · simp only [h, if_true]
  · rw [Bool.not_eq_true] at h
    simp only [h, Bool.false_eq_true, if_false, String_esearch]
    cases http.NewRequest (lit "GET")
        (eutilsURL ++ lit "esearch.fcgi?db=pubmed&retmode=json&term=" ++ query) <;> rfl

/-! ### The claims that rest on the reference URL model -/

set_option maxRecDepth 100000

/-- C10. With the two base URL constants and the reference URL parser, `NewClient`
does not fail, whatever the network and the decoders are: it returns a nil error and
the client `builtClient`, whose `EutilsURL` and `UtilsURL` are what the parser makes
of "http://eutils.ncbi.nlm.nih.gov/entrez/eutils/" and
"https://www.ncbi.nlm.nih.gov/pmc/utils/", each of which renders back to exactly that
string, and whose transport handle is `http.DefaultClient`. -/
theorem NewClient_succeeds (Do : http.Client → http.Request → Except ExtError http.Response)
    (decode : Decoders) :
    NewClient (goEnv Do decode) = (some builtClient, none) ∧
    eutilsURL = lit "http://eutils.ncbi.nlm.nih.gov/entrez/eutils/" ∧
    utilsURL = lit "https://www.ncbi.nlm.nih.gov/pmc/utils/" ∧
    url.ParseRequestURI eutilsURL = .ok builtClient.EutilsURL ∧
    url.ParseRequestURI utilsURL = .ok builtClient.UtilsURL ∧
    builtClient.EutilsURL.String = lit "http://eutils.ncbi.nlm.nih.gov/entrez/eutils/" ∧
    builtClient.UtilsURL.String = lit "https://www.ncbi.nlm.nih.gov/pmc/utils/" ∧
    builtClient.httpClient = http.DefaultClient := by
  have h1 : url.ParseRequestURI eutilsURL = .ok builtClient.EutilsURL := rfl
  have h2 : url.ParseRequestURI utilsURL = .ok builtClient.UtilsURL := rfl
  refine ⟨?_, rfl, rfl, h1, h2, rfl, rfl, rfl⟩
  simp only [NewClient, goEnv, h1, h2]
  rfl

/-- C6, as stated, fails on queries that hold a number sign: `http.NewRequest`
parses the URL once more and takes what follows the number sign for the fragment.
For the query "#%zz" the request URL parses, yet `Esearch` sends no GET request: the
escape "%zz" is rejected and `httpGet` returns that error before any round trip.
For the query "a#b c" the request URL parses and one GET request is sent, but its
URL has the raw query "db=pubmed&retmode=json&term=a" and the fragment "b c", and
renders with "term=a#b%20c" at its end, not with the query unchanged. -/
theorem Esearch_fragment_not_sent :
    url.ParseRequestURI
        (eutilsURL ++ lit "esearch.fcgi?db=pubmed&retmode=json&term=" ++ lit "#%zz") =
      .ok (esearchURL (lit "#%zz")) ∧
    Esearch (goEnv sampleDo sampleDecoders) builtClient (lit "#%zz") =
      ((none, some (.ext (.url
          { Op := lit "parse",
            URL := lit ("http://eutils.ncbi.nlm.nih.gov/entrez/eutils/" ++
              "esearch.fcgi?db=pubmed&retmode=json&term=#%zz"),
            Err := .EscapeError (lit "%zz") }))),
        [.parse (lit ("http://eutils.ncbi.nlm.nih.gov/entrez/eutils/" ++
            "esearch.fcgi?db=pubmed&retmode=json&term=#%zz")),
         .newRequest (lit "GET") (lit ("http://eutils.ncbi.nlm.nih.gov/entrez/eutils/" ++
            "esearch.fcgi?db=pubmed&retmode=json&term=#%zz"))]) ∧
    (Esearch (goEnv sampleDo sampleDecoders) builtClient (lit "#%zz")).2.filter Event.isGet =
      [] ∧
    url.ParseRequestURI
        (eutilsURL ++ lit "esearch.fcgi?db=pubmed&retmode=json&term=" ++ lit "a#b c") =
      .ok (esearchURL (lit "a#b c")) ∧
    (Esearch (goEnv sampleDo sampleDecoders) builtClient (lit "a#b c")).2.filter Event.isGet =
      [Event.get
        { Method := lit "GET",
          URL := { Scheme := lit "http", Host := lit "eutils.ncbi.nlm.nih.gov",
                   Path := lit "/entrez/eutils/esearch.fcgi",
                   RawQuery := lit "db=pubmed&retmode=json&term=a",
                   Fragment := lit "b c", RawFragment := lit "b c" },
          Host := lit "eutils.ncbi.nlm.nih.gov" }] ∧
    url.URL.String
        { Scheme := lit "http", Host := lit "eutils.ncbi.nlm.nih.gov",
          Path := lit "/entrez/eutils/esearch.fcgi",
          RawQuery := lit "db=pubmed&retmode=json&term=a",
          Fragment := lit "b c", RawFragment := lit "b c" } =
      lit ("http://eutils.ncbi.nlm.nih.gov/entrez/eutils/" ++
        "esearch.fcgi?db=pubmed&retmode=json&term=a#b%20c") ∧
    eutilsURL ++ lit "esearch.fcgi?db=pubmed&retmode=json&term=" ++ lit "a#b c" ≠
      lit ("http://eutils.ncbi.nlm.nih.gov/entrez/eutils/" ++
        "esearch.fcgi?db=pubmed&retmode=json&term=a#b%20c") :=
  ⟨rfl, rfl, rfl, rfl, rfl, rfl, by decide⟩

/-- C6, amended.  For the client `NewClient` returns and every query string that holds
no number sign and for which the request URL parses, `Esearch` sends exactly one GET
request, and it is the request `http.NewRequest` builds: its URL is the parsed
request URL, which renders to the eutils base URL followed by
"esearch.fcgi?db=pubmed&retmode=json&term=" followed by the query unchanged, has the
query, byte for byte, after "term=" in its raw query, and has no fragment. -/
theorem Esearch_one_GET (Do : http.Client → http.Request → Except ExtError http.Response)
    (decode : Decoders) (query : GoString) (u : url.URL)
    (hfrag : 35 ∉ query)
    (hparse : url.ParseRequestURI
      (eutilsURL ++ lit "esearch.fcgi?db=pubmed&retmode=json&term=" ++ query) = .ok u) :
    (NewClient (goEnv Do decode)).1 = some builtClient ∧
    http.NewRequest (lit "GET")
        (eutilsURL ++ lit "esearch.fcgi?db=pubmed&retmode=json&term=" ++ query) =
      .ok { Method := lit "GET", URL := u, Host := lit "eutils.ncbi.nlm.nih.gov" } ∧
    (Esearch (goEnv Do decode) builtClient query).2.filter Event.isGet =
      [Event.get { Method := lit "GET", URL := u, Host := lit "eutils.ncbi.nlm.nih.gov" }] ∧
    u.String = eutilsURL ++ lit "esearch.fcgi?db=pubmed&retmode=json&term=" ++ query ∧
    u.RawQuery = lit "db=pubmed&retmode=json&term=" ++ query ∧
    u.Fragment = [] := by
  have hctl : url.stringContainsCTLByte query = false := by
    by_cases h : url.stringContainsCTLByte query = true
    · rw [parse_esearch, if_pos h] at hparse
      cases hparse
    · simpa using h
  have hu : u = esearchURL query := by
    rw [parse_esearch] at hparse
    simp only [hctl, Bool.false_eq_true, if_false] at hparse
    cases hparse
    rfl
  have hreq := NewRequest_esearch query hfrag hctl
  subst hu
  refine ⟨rfl, hreq, ?_, String_esearch query, rfl, rfl⟩
  rw [Esearch_gets, hparse, hreq]
  rfl

/-- Witness of C6 (amended): the query of the package's search test. -/
theorem Esearch_one_GET_witness :
    (NewClient (goEnv sampleDo sampleDecoders)).1 = some builtClient ∧
    http.NewRequest (lit "GET")
        (eutilsURL ++ lit "esearch.fcgi?db=pubmed&retmode=json&term=" ++ sampleQuery) =
      .ok { Method := lit "GET", URL := sampleEsearchURL,
            Host := lit "eutils.ncbi.nlm.nih.gov" } ∧
    (Esearch (goEnv sampleDo sampleDecoders) builtClient sampleQuery).2.filter Event.isGet =
      [Event.get { Method := lit "GET", URL := sampleEsearchURL,
                   Host := lit "eutils.ncbi.nlm.nih.gov" }] ∧
    sampleEsearchURL.String =
      eutilsURL ++ lit "esearch.fcgi?db=pubmed&retmode=json&term=" ++ sampleQuery ∧
    sampleEsearchURL.RawQuery = lit "db=pubmed&retmode=json&term=" ++ sampleQuery ∧
    sampleEsearchURL.Fragment = [] :=
  Esearch_one_GET sampleDo sampleDecoders sampleQuery sampleEsearchURL (by decide) rfl

section
variable {U R : Type}

/-- C2, as stated, fails: in an environment where every round trip succeeds and every
body decodes, `Efetch` with `db` "pmc" and an empty `retmode` returns the error
"httpGetJsonEfetch: wrong retmode" and no response, and makes no outside call; the
same call with `retmode` "xml" returns the PMC article set. -/
theorem Efetch_pmc_empty_retmode_rejected :
    Efetch (goEnv sampleDo sampleDecoders) builtClient (lit "3531190") (lit "pmc") (lit "")
        (lit "") =
      ((Response.nil, some (Error.New (lit "httpGetJsonEfetch: wrong retmode"))), []) ∧
    (Efetch (goEnv sampleDo sampleDecoders) builtClient (lit "3531190") (lit "pmc") (lit "")
        (lit "xml")).1 = (Response.pmc samplePmc, none) :=
  ⟨rfl, rfl⟩

/-- C2, amended.  For `db` "pmc" and an empty `retmode`, `Efetch` rejects the call at
its input check: for every `id` and `rettype`, in every environment, it returns the
nil response and the error "httpGetJsonEfetch: wrong retmode" and makes no outside
call.  With `retmode` "xml", when the request URL is built, the transport succeeds
and the body decodes against the PMC schema, `Efetch` returns the PMC article set (a
pointer to an `EfetchPmcXmlResponse`) and no error. -/
theorem Efetch_pmc_retmode (env : Env U R) (c : Client U) (id rettype : GoString) :
    Efetch env c id (lit "pmc") rettype (lit "") =
      ((Response.nil, some (Error.New (lit "httpGetJsonEfetch: wrong retmode"))), []) ∧
    ∀ u body r,
      env.ParseRequestURI (efetchRawURL env c id (lit "pmc") rettype (lit "xml")) = .ok u →
      (httpGet env u c.httpClient).1 = .ok body →
      env.decode.xmlPmc body {} = (r, none) →
      (Efetch env c id (lit "pmc") rettype (lit "xml")).1 = (Response.pmc r, none) := by
  have h1 : ¬(lit "pmc" ≠ lit "pubmed" ∧ lit "pmc" ≠ lit "pmc") := by simp
  have h2 : lit "" ≠ lit "text" ∧ lit "" ≠ lit "xml" := by decide
  have hne : lit "pmc" ≠ lit "pubmed" := by decide
  refine ⟨?_, fun u body r hp hg hd => ?_⟩
  · unfold Efetch
    rw [if_neg h1, if_pos h2]
  · rw [Efetch_xml_results env c id _ rettype u body (Or.inr rfl) hp hg, if_neg hne, hd]
    rfl

end

/-! ### Runs on concrete inputs -/

/-- Witness of C2 (amended): id "9997" with `db` "pmc". -/
theorem Efetch_pmc_retmode_witness :
    Efetch (goEnv sampleDo sampleDecoders) builtClient (lit "9997") (lit "pmc")
        (lit "abstract") (lit "") =
      ((Response.nil, some (Error.New (lit "httpGetJsonEfetch: wrong retmode"))), []) ∧
    (Efetch (goEnv sampleDo sampleDecoders) builtClient (lit "9997") (lit "pmc")
        (lit "abstract") (lit "xml")).1 = (Response.pmc samplePmc, none) :=
  ⟨(Efetch_pmc_retmode (goEnv sampleDo sampleDecoders) builtClient (lit "9997")
      (lit "abstract")).1,
    (Efetch_pmc_retmode (goEnv sampleDo sampleDecoders) builtClient (lit "9997")
      (lit "abstract")).2 (sampleEfetchURL (lit "pmc") (lit "xml")) sampleBody samplePmc
      rfl rfl rfl⟩

/-- Witness of C3: the text fetch of the package's test, id "9997" in "pubmed". -/
theorem Efetch_text_exact_body_witness :
    (Efetch (goEnv sampleDo sampleDecoders) builtClient (lit "9997") (lit "pubmed")
        (lit "abstract") (lit "text")).1 = (Response.string sampleBody.bytes, none) :=
  Efetch_text_exact_body (goEnv sampleDo sampleDecoders) builtClient (lit "9997")
    (lit "pubmed") (lit "abstract") (sampleEfetchURL (lit "pubmed") (lit "text")) sampleBody
    (Or.inl rfl) rfl rfl rfl

/-- Witness of C4: the conversion of the package's test; the decoded response has a
second record, with a status. -/
theorem IDConvert_first_record_witness :
    (IDConvert (goEnv sampleDo sampleDecoders) builtClient (lit "23193287")).1 =
      .returns (lit "23193287", lit "PMC3531190", none) :=
  (IDConvert_first_record (goEnv sampleDo sampleDecoders) builtClient (lit "23193287")
    sampleIdconvURL sampleBody sampleIdconv
    { Pmcid := lit "PMC3531190", Pmid := lit "23193287" }
    [{ Pmcid := lit "PMC1", Pmid := lit "1", Status := lit "error" }] rfl rfl rfl rfl).1

/-- Witness of C5: a conversion whose response decodes to no record. -/
theorem IDConvert_no_records_witness :
    (IDConvert (goEnv sampleDo emptyDecoders) builtClient (lit "23193287")).1 =
      .returns ([], [], some (.New (lit "IDConvert: no records in response"))) :=
  (IDConvert_no_records (goEnv sampleDo emptyDecoders) builtClient (lit "23193287")
    sampleIdconvURL sampleBody {} rfl rfl rfl rfl).1

/-- Witness of C7: the xml fetch of the package's test, id "9997" in "pubmed". -/
theorem Efetch_xml_schema_witness :
    (Efetch (goEnv sampleDo sampleDecoders) builtClient (lit "9997") (lit "pubmed")
        (lit "abstract") (lit "xml")).1 = (Response.pubmed samplePubmed, none) :=
  (Efetch_xml_schema (goEnv sampleDo sampleDecoders) builtClient (lit "9997") (lit "pubmed")
    (lit "abstract") (sampleEfetchURL (lit "pubmed") (lit "xml")) sampleBody rfl rfl).1
    rfl samplePubmed rfl

/-- Witness of C8: the three operations with decoders that fail on every body. -/
theorem decode_failure_witness :
    (Esearch (goEnv sampleDo failingDecoders) builtClient sampleQuery).1.2 =
      some (Error.ext (.other (lit "unexpected EOF"))) ∧
    (Efetch (goEnv sampleDo failingDecoders) builtClient (lit "9997") (lit "pubmed")
        (lit "abstract") (lit "xml")).1.2 = some (Error.ext (.other (lit "unexpected EOF"))) ∧
    (Efetch (goEnv sampleDo failingDecoders) builtClient (lit "9997") (lit "pmc")
        (lit "abstract") (lit "xml")).1.2 = some (Error.ext (.other (lit "unexpected EOF"))) ∧
    (IDConvert (goEnv sampleDo failingDecoders) builtClient (lit "23193287")).1 =
      .returns ([], [], some (.New (lit "IDConvert: failed decoding of response"))) :=
  ⟨(decode_failure (goEnv sampleDo failingDecoders) builtClient sampleBody
      (.other (lit "unexpected EOF"))).1 sampleQuery sampleEsearchURL (some {}) rfl rfl rfl,
    (decode_failure (goEnv sampleDo failingDecoders) builtClient sampleBody
      (.other (lit "unexpected EOF"))).2.1 (lit "9997") (lit "abstract")
      (sampleEfetchURL (lit "pubmed") (lit "xml")) {} rfl rfl rfl,
    (decode_failure (goEnv sampleDo failingDecoders) builtClient sampleBody
      (.other (lit "unexpected EOF"))).2.2.1 (lit "9997") (lit "abstract")
      (sampleEfetchURL (lit "pmc") (lit "xml")) {} rfl rfl rfl,
    (decode_failure (goEnv sampleDo failingDecoders) builtClient sampleBody
      (.other (lit "unexpected EOF"))).2.2.2.1 (lit "23193287") sampleIdconvURL (some {})
      rfl rfl rfl⟩

/-- Witness of C9: the three operations on a network where every round trip fails. -/
theorem transport_failure_witness :
    (Esearch (goEnv failingDo sampleDecoders) builtClient sampleQuery).1 =
      (none, some (Error.ext (.other (lit "dial tcp: connection refused")))) ∧
    (Efetch (goEnv failingDo sampleDecoders) builtClient (lit "9997") (lit "pubmed")
        (lit "abstract") (lit "text")).1 =
      (Response.nil, some (Error.ext (.other (lit "dial tcp: connection refused")))) ∧
    (IDConvert (goEnv failingDo sampleDecoders) builtClient (lit "23193287")).1 =
      .returns ([], [], some (Error.ext (.other (lit "dial tcp: connection refused")))) :=
  ⟨congrArg Prod.fst ((transport_failure (goEnv failingDo sampleDecoders) builtClient
      (.other (lit "dial tcp: connection refused"))).1 sampleQuery sampleEsearchURL
      { Method := lit "GET", URL := sampleEsearchURL, Host := lit "eutils.ncbi.nlm.nih.gov" }
      rfl rfl rfl),
    congrArg Prod.fst ((transport_failure (goEnv failingDo sampleDecoders) builtClient
      (.other (lit "dial tcp: connection refused"))).2.1 (lit "9997") (lit "pubmed")
      (lit "abstract") (lit "text") (sampleEfetchURL (lit "pubmed") (lit "text"))
      { Method := lit "GET", URL := sampleEfetchURL (lit "pubmed") (lit "text"),
        Host := lit "eutils.ncbi.nlm.nih.gov" }
      (Or.inl rfl) (Or.inl rfl) rfl rfl rfl),
    congrArg Prod.fst ((transport_failure (goEnv failingDo sampleDecoders) builtClient
      (.other (lit "dial tcp: connection refused"))).2.2 (lit "23193287") sampleIdconvURL
      { Method := lit "GET", URL := sampleIdconvURL, Host := lit "www.ncbi.nlm.nih.gov" }
      rfl rfl rfl)⟩

end Pubmed
